/-
Verification of the SmartLens incremental indexing and query engine
(src/app.py) as a shallow embedding in Lean 4.

The embedding follows `app.py` directly:

* `index_images` models the function of the same name (lines 54-96):
  it filters the folder listing by image extension, fetches the store's
  existing ids (`collection.get()['ids']`), builds the `new_ids` /
  `new_images` lists in lockstep (skipping already-indexed ids before
  any read attempt, and skipping items whose read raises, which the code
  logs with `print`), then batch-encodes and appends the new entries via
  `collection.add`, or silently passes when nothing is new.
* The PIL image type and the CLIP model are opaque: images are a type
  parameter `Img`, embeddings a type parameter `α`, and the model an
  arbitrary function `encode : Img → α` (the batch call
  `model.encode(new_images)` maps `encode` over the batch).
* A source folder is a listing `List (String × Option Img)`: the file
  name paired with `some img` when `Image.open(...).convert("RGB")`
  succeeds and `none` when it raises.
* The UI messages of a run (`st.warning`, `st.success`, or the silent
  `pass` branch) are reified as `IndexOutcome`.
* The store query (`collection.query`, lines 125-128) is executed by
  chromadb, which is external to this repository; `storeQuery` is
  modelled from the spec's contract for it (smallest `k` distances in
  ascending order, ties broken by ItemID lexical order). Distances live
  in an arbitrary linear order `δ`.
* `searchFlow` models the query path of `main` (lines 118-145): the
  Python truthiness guard `if query:`, the query embedding, the store
  query with `n_results=3`, and the non-error "No matching images
  found" branch for empty results.

String comparison and lowercasing are modelled on `String.data`
(lists of characters) so that everything evaluates in the kernel.
-/
import Mathlib

namespace SmartLens

/-- Lexicographic order on character lists, as a Boolean predicate.
Models Python's string comparison used by the spec's "ItemID lexical
order" tie-breaking rule. -/
def charListLE : List Char → List Char → Bool
  | [], _ => true
  | _ :: _, [] => false
  | a :: as, b :: bs => if a < b then true else if b < a then false else charListLE as bs

/-- Boolean test that the first character list starts with the second. -/
def charListStartsWith : List Char → List Char → Bool
  | _, [] => true
  | [], _ :: _ => false
  | a :: as, b :: bs => a == b && charListStartsWith as bs

/-- Boolean test that the first character list ends with the second. -/
def charListEndsWith (l s : List Char) : Bool :=
  charListStartsWith l.reverse s.reverse

/-- The extension filter of `index_images` (app.py line 58):
`f.lower().endswith(('.png', '.jpg', '.jpeg'))`.  Lowercasing is
per-character, which agrees with Python `str.lower` on ASCII file
names. -/
def isImageFile (f : String) : Bool :=
  let low := f.data.map Char.toLower
  charListEndsWith low ".png".data || charListEndsWith low ".jpg".data ||
    charListEndsWith low ".jpeg".data

/-- One record of the vector store: the id (the file name, line 79), the
embedding vector, and the metadata dict `{"filename": f}` (line 92),
whose single value is kept as `metaFilename`. -/
structure IndexEntry (α : Type) where
  id : String
  embedding : α
  metaFilename : String
deriving DecidableEq

/-- The chroma collection: the list of records, in insertion order. -/
structure Store (α : Type) where
  entries : List (IndexEntry α)
deriving DecidableEq

/-- The id list returned by `collection.get()['ids']` (line 65). -/
def listIDs {α : Type} (s : Store α) : List String :=
  s.entries.map IndexEntry.id

/-- The folder listing filtered by extension (line 58). -/
def imageFiles {Img : Type} (folder : List (String × Option Img)) :
    List (String × Option Img) :=
  folder.filter fun p => isImageFile p.1

/-- The loop of lines 70-81 building `new_ids` and `new_images` in
lockstep: an already-indexed id is skipped before any read attempt, a
failing read (`none`) is caught and skipped, and each surviving item
contributes its id and image in the same position. -/
def newReadableItems {Img : Type} (existing : List String)
    (files : List (String × Option Img)) : List (String × Img) :=
  files.filterMap fun p =>
    if p.1 ∈ existing then none
    else
      match p.2 with
      | some img => some (p.1, img)
      | none => none

/-- The ids printed by the `except` branch (line 81): new items whose
read raised. -/
def skippedWarnings {Img : Type} (existing : List String)
    (files : List (String × Option Img)) : List String :=
  files.filterMap fun p =>
    if p.1 ∈ existing then none
    else
      match p.2 with
      | some _ => none
      | none => some p.1

/-- The user-visible outcome of one indexing run: the `st.warning` of
line 61, the `st.success` of line 94 (carrying `len(new_images)`), or
the silent `pass` of line 96. -/
inductive IndexOutcome where
  | noImagesWarning
  | indexedSuccess (n : Nat)
  | silentNoop
deriving DecidableEq

/-- The number of newly indexed items a run reports; the silent branches
report none. -/
def IndexOutcome.newCount : IndexOutcome → Nat
  | .indexedSuccess n => n
  | _ => 0

/-- Whether the run emitted any message at all: `st.warning` and
`st.success` do, the `pass` branch of line 96 does not. -/
def IndexOutcome.emitsMessage : IndexOutcome → Bool
  | .silentNoop => false
  | _ => true

/-- The indexing run `index_images(model, collection)` of app.py lines
54-96, over a folder listing and a store state.  Returns the store
after the run together with the run's visible outcome. -/
def index_images {Img α : Type} (encode : Img → α)
    (folder : List (String × Option Img)) (store : Store α) :
    Store α × IndexOutcome :=
  let files := imageFiles folder
  if files.isEmpty then (store, IndexOutcome.noImagesWarning)
  else
    let pairs := newReadableItems (listIDs store) files
    if pairs.isEmpty then (store, IndexOutcome.silentNoop)
    else
      (⟨store.entries ++ pairs.map fun p => ⟨p.1, encode p.2, p.1⟩⟩,
        IndexOutcome.indexedSuccess pairs.length)

/-- Ranking relation of the store's query contract: ascending distance
to the query vector, ties broken by id in lexical order. -/
def rankRel {α δ : Type} [LinearOrder δ] (d : α → α → δ) (qv : α)
    (e1 e2 : IndexEntry α) : Prop :=
  d qv e1.embedding < d qv e2.embedding ∨
    (d qv e1.embedding = d qv e2.embedding ∧ charListLE e1.id.data e2.id.data = true)

instance {α δ : Type} [LinearOrder δ] (d : α → α → δ) (qv : α) :
    DecidableRel (rankRel d qv) := by
  intro a b
  unfold rankRel
  infer_instance

/-- Modelled from the spec: the nearest-neighbour query
`collection.query(query_embeddings, n_results=k)` (app.py lines
125-128) is executed by chromadb, external to this repository.  The
spec's contract for `query` (section 4.1) is: the `k` entries with
smallest distance under the store's metric, ascending by distance, ties
broken by ItemID lexical order; all entries when the store holds fewer
than `k`.  The metric is kept abstract as `d`, valued in a linear
order. -/
def storeQuery {α δ : Type} [LinearOrder δ] (d : α → α → δ)
    (store : Store α) (qv : α) (k : Nat) : List (String × δ) :=
  ((List.insertionSort (rankRel d qv) store.entries).map
    fun e => (e.id, d qv e.embedding)).take k

/-- The user-visible outcome of the query path of `main` (lines
118-145): nothing happens when the text input is falsy (`if query:`);
otherwise the store is queried and the result is either displayed as
matches or reported with the informational "No matching images found"
message, which is not an error. -/
inductive SearchOutcome (δ : Type) where
  | notSearched
  | noMatches
  | results (rs : List (String × δ))
deriving DecidableEq

/-- The query path of `main` (lines 118-145): Python's `if query:` is
the emptiness test on the string, the query is embedded with the same
model, and the store is queried with `n_results=3`. -/
def searchFlow {α δ : Type} [LinearOrder δ] (encodeText : String → α)
    (d : α → α → δ) (store : Store α) (q : String) : SearchOutcome δ :=
  if q.data.isEmpty then SearchOutcome.notSearched
  else
    let res := storeQuery d store (encodeText q) 3
    if res.isEmpty then SearchOutcome.noMatches else SearchOutcome.results res

/-- The entries a run appends to the store: everything past the original
length, in order. -/
def insertedEntries {Img α : Type} (encode : Img → α)
    (folder : List (String × Option Img)) (store : Store α) :
    List (IndexEntry α) :=
  ((index_images encode folder store).1).entries.drop store.entries.length

lemma newReadableItems_append {Img : Type} (existing : List String)
    (l1 l2 : List (String × Option Img)) :
    newReadableItems existing (l1 ++ l2) =
      newReadableItems existing l1 ++ newReadableItems existing l2 :=
  List.filterMap_append _ _ _

lemma mem_newReadableItems {Img : Type} {existing : List String}
    {files : List (String × Option Img)} {p : String × Img}
    (hp : p ∈ newReadableItems existing files) :
    (p.1, some p.2) ∈ files ∧ p.1 ∉ existing := by
  rcases List.mem_filterMap.mp hp with ⟨a, ha, hfa⟩
  by_cases hc : a.1 ∈ existing
  · simp [hc] at hfa
  · cases h2 : a.2 with
    | none => simp [hc, h2] at hfa
    | some img =>
      simp only [hc, if_neg, ite_false, h2] at hfa
      have hae : a = (a.1, some img) := by
        cases a
        simp_all
      rcases Option.some.inj hfa with rfl
      exact ⟨by simpa using hae ▸ ha, hc⟩

lemma newReadableItems_eq_nil_of {Img : Type} {existing : List String}
    {files : List (String × Option Img)}
    (h : ∀ p ∈ files, p.1 ∈ existing ∨ p.2 = none) :
    newReadableItems existing files = [] := by
  rw [newReadableItems, List.filterMap_eq_nil_iff]
  intro a ha
  rcases h a ha with h1 | h1
  · simp [h1]
  · simp [h1]

lemma index_images_fst {Img α : Type} (encode : Img → α)
    (folder : List (String × Option Img)) (store : Store α) :
    (index_images encode folder store).1 =
      ⟨store.entries ++ (newReadableItems (listIDs store) (imageFiles folder)).map
        fun p => ⟨p.1, encode p.2, p.1⟩⟩ := by
  unfold index_images
  by_cases h1 : (imageFiles folder).isEmpty
  · have he : imageFiles folder = [] := List.isEmpty_iff.mp h1
    simp [h1, he, newReadableItems]
  · by_cases h2 : (newReadableItems (listIDs store) (imageFiles folder)).isEmpty
    · have he : newReadableItems (listIDs store) (imageFiles folder) = [] :=
        List.isEmpty_iff.mp h2
      simp [h1, h2, he]
    · simp [h1, h2]

lemma insertedEntries_eq {Img α : Type} (encode : Img → α)
    (folder : List (String × Option Img)) (store : Store α) :
    insertedEntries encode folder store =
      (newReadableItems (listIDs store) (imageFiles folder)).map
        fun p => ⟨p.1, encode p.2, p.1⟩ := by
  rw [insertedEntries, index_images_fst]
  exact List.drop_left _ _

lemma listIDs_index_images {Img α : Type} (encode : Img → α)
    (folder : List (String × Option Img)) (store : Store α) :
    listIDs (index_images encode folder store).1 =
      listIDs store ++
        (newReadableItems (listIDs store) (imageFiles folder)).map Prod.fst := by
  rw [index_images_fst, listIDs, listIDs]
  simp [List.map_map, Function.comp]

lemma second_run_no_new {Img α : Type} (encode : Img → α)
    (folder : List (String × Option Img)) (store : Store α) :
    newReadableItems (listIDs (index_images encode folder store).1)
      (imageFiles folder) = [] := by
  apply newReadableItems_eq_nil_of
  intro p hp
  rw [listIDs_index_images]
  by_cases hc : p.1 ∈ listIDs store
  · exact Or.inl (List.mem_append_left _ hc)
  · cases h2 : p.2 with
    | none => exact Or.inr rfl
    | some img =>
      refine Or.inl (List.mem_append_right _ ?_)
      refine List.mem_map.mpr ⟨(p.1, img), ?_, rfl⟩
      rw [newReadableItems]
      exact List.mem_filterMap.mpr ⟨p, hp, by simp [hc, h2]⟩

/-- C1: in every indexing run, an id that is already present in the
store's id snapshot (`collection.get()['ids']`) is never re-inserted:
every id among the entries the run appends is absent from the snapshot
taken at the start of the run, whatever the folder and prior store
state. -/
theorem index_images_no_reinsert {Img α : Type} (encode : Img → α)
    (folder : List (String × Option Img)) (store : Store α) (i : String)
    (h : i ∈ (insertedEntries encode folder store).map IndexEntry.id) :
    i ∉ listIDs store := by
  rw [insertedEntries_eq] at h
  rcases List.mem_map.mp h with ⟨e, he, hid⟩
  rcases List.mem_map.mp he with ⟨p, hp, hpe⟩
  have hnot := (mem_newReadableItems hp).2
  rw [← hid, ← hpe]
  exact hnot

theorem index_images_no_reinsert_witness :
    "b.jpg" ∉ listIDs (⟨[⟨"a.jpg", 5, "a.jpg"⟩]⟩ : Store Int) :=
  index_images_no_reinsert (fun n : Nat => (n : Int))
    [("a.jpg", some 1), ("b.jpg", some 2)] ⟨[⟨"a.jpg", 5, "a.jpg"⟩]⟩ "b.jpg"
    (by decide)

/-- C2: running `index_images` twice over an unchanged folder is
idempotent: the second run leaves the store exactly as the first run
left it, and the second run reports 0 newly indexed items. -/
theorem index_images_idempotent {Img α : Type} (encode : Img → α)
    (folder : List (String × Option Img)) (store : Store α) :
    (index_images encode folder (index_images encode folder store).1).1 =
      (index_images encode folder store).1 ∧
    ((index_images encode folder (index_images encode folder store).1).2).newCount = 0 := by
  have hnil := second_run_no_new encode folder store
  by_cases h1 : (imageFiles folder).isEmpty
  · constructor
    · conv_lhs => rw [index_images]
      simp [h1]
    · rw [index_images]
      simp [h1, IndexOutcome.newCount]
  · constructor
    · conv_lhs => rw [index_images]
      simp [h1, hnil]
    · rw [index_images]
      simp [h1, hnil, IndexOutcome.newCount]

/-- C3: if between two runs the source gains exactly one new, readable
image file whose id is not yet indexed, the second run appends exactly
that one entry — the store after the second run is the store after the
first run plus one entry — and reports exactly 1 new item; all entries
present after the first run are untouched, in place and bit-identical. -/
theorem index_images_incremental {Img α : Type} (encode : Img → α)
    (folder : List (String × Option Img)) (store : Store α) (f : String) (img : Img)
    (hext : isImageFile f = true)
    (hfresh : f ∉ listIDs (index_images encode folder store).1) :
    ((index_images encode (folder ++ [(f, some img)])
        (index_images encode folder store).1).1).entries =
      ((index_images encode folder store).1).entries ++ [⟨f, encode img, f⟩] ∧
    (index_images encode (folder ++ [(f, some img)])
        (index_images encode folder store).1).2.newCount = 1 := by
  have hnil := second_run_no_new encode folder store
  have hfiles : imageFiles (folder ++ [(f, some img)]) =
      imageFiles folder ++ [(f, some img)] := by
    simp [imageFiles, List.filter_append, hext]
  have hpairs : newReadableItems (listIDs (index_images encode folder store).1)
      (imageFiles (folder ++ [(f, some img)])) = [(f, img)] := by
    rw [hfiles, newReadableItems_append, hnil]
    simp [newReadableItems, hfresh]
  constructor
  · rw [index_images_fst, hpairs]
    rfl
  · rw [index_images]
    have hne : (imageFiles (folder ++ [(f, some img)])).isEmpty = false := by
      rw [hfiles]
      simp
    simp [hne, hpairs, IndexOutcome.newCount]

theorem index_images_incremental_witness :
    ((index_images (fun n : Nat => (n : Int)) ([("a.jpg", some 1)] ++ [("b.jpg", some 2)])
        (index_images (fun n : Nat => (n : Int)) [("a.jpg", some 1)] ⟨[]⟩).1).1).entries =
      ((index_images (fun n : Nat => (n : Int)) [("a.jpg", some 1)] ⟨[]⟩).1).entries ++
        [⟨"b.jpg", 2, "b.jpg"⟩] ∧
    (index_images (fun n : Nat => (n : Int)) ([("a.jpg", some 1)] ++ [("b.jpg", some 2)])
        (index_images (fun n : Nat => (n : Int)) [("a.jpg", some 1)] ⟨[]⟩).1).2.newCount = 1 :=
  index_images_incremental (fun n : Nat => (n : Int)) [("a.jpg", some 1)] ⟨[]⟩
    "b.jpg" 2 (by decide) (by decide)

/-- C8: an unreadable source item never aborts the run and never
changes what the run indexes: with the unreadable item removed from the
listing, the resulting store is identical, so every other readable new
item is still embedded and inserted; and when the unreadable item is a
new image file, its id is recorded among the run's warnings (the
`print` of the `except` branch). -/
theorem index_images_unreadable_skipped {Img α : Type} (encode : Img → α)
    (pre post : List (String × Option Img)) (f : String) (store : Store α)
    (hext : isImageFile f = true) (hnew : f ∉ listIDs store) :
    (index_images encode (pre ++ (f, none) :: post) store).1 =
      (index_images encode (pre ++ post) store).1 ∧
    f ∈ skippedWarnings (listIDs store) (imageFiles (pre ++ (f, none) :: post)) := by
  have hfiles : imageFiles (pre ++ (f, (none : Option Img)) :: post) =
      imageFiles pre ++ (f, (none : Option Img)) :: imageFiles post := by
    simp [imageFiles, List.filter_append, List.filter_cons, hext]
  constructor
  · rw [index_images_fst, index_images_fst]
    have hmid : newReadableItems (listIDs store)
        (imageFiles (pre ++ (f, (none : Option Img)) :: post)) =
        newReadableItems (listIDs store) (imageFiles (pre ++ post)) := by
      rw [hfiles]
      have hcons : (f, (none : Option Img)) :: imageFiles post =
          [(f, (none : Option Img))] ++ imageFiles post := rfl
      rw [hcons, newReadableItems_append, newReadableItems_append]
      have hbad : newReadableItems (listIDs store) [(f, (none : Option Img))] = [] := by
        simp [newReadableItems]
      rw [hbad]
      simp [imageFiles, List.filter_append, newReadableItems_append]
    rw [hmid]
  · rw [hfiles, skippedWarnings]
    refine List.mem_filterMap.mpr ⟨(f, none), ?_, by simp [hnew]⟩
    exact List.mem_append_right _ (List.mem_cons_self _ _)

theorem index_images_unreadable_skipped_witness :
    (index_images (fun n : Nat => (n : Int))
        ([("a.jpg", some 1)] ++ ("bad.png", none) :: [("b.jpg", some 2)]) ⟨[]⟩).1 =
      (index_images (fun n : Nat => (n : Int)) ([("a.jpg", some 1)] ++ [("b.jpg", some 2)]) ⟨[]⟩).1 ∧
    "bad.png" ∈ skippedWarnings (listIDs (⟨[]⟩ : Store Int))
      (imageFiles ([("a.jpg", some 1)] ++ ("bad.png", (none : Option Nat)) :: [("b.jpg", some 2)])) :=
  index_images_unreadable_skipped (fun n : Nat => (n : Int))
    [("a.jpg", some 1)] [("b.jpg", some 2)] "bad.png" ⟨[]⟩ (by decide) (by decide)

/-- C9 counterexample: a run over a folder whose single image file is
already indexed computes an empty new-item set and finishes in the
`pass` branch of line 96, which emits no message at all — the no-op run
is silent, not explicitly reported. -/
theorem index_images_silent_noop_counterexample :
    (index_images (fun n : Nat => (n : Int)) [("a.jpg", some 1)]
        (⟨[⟨"a.jpg", 1, "a.jpg"⟩]⟩ : Store Int)).2 = IndexOutcome.silentNoop ∧
    IndexOutcome.emitsMessage IndexOutcome.silentNoop = false := by
  exact ⟨by decide, rfl⟩

/-- C9 amended: when the filtered folder listing is non-empty but the
computed set of new items is empty, the run returns the store unchanged
and takes the silent `pass` branch, emitting no report; only the
no-image-files-at-all case produces a message (a warning). -/
theorem index_images_noop_is_silent {Img α : Type} (encode : Img → α)
    (folder : List (String × Option Img)) (store : Store α)
    (hfiles : (imageFiles folder).isEmpty = false)
    (hnoop : newReadableItems (listIDs store) (imageFiles folder) = []) :
    index_images encode folder store = (store, IndexOutcome.silentNoop) := by
  rw [index_images]
  simp [hfiles, hnoop]

theorem index_images_noop_is_silent_witness :
    index_images (fun n : Nat => (n : Int)) [("a.jpg", some 1)]
        (⟨[⟨"a.jpg", 1, "a.jpg"⟩]⟩ : Store Int) =
      (⟨[⟨"a.jpg", 1, "a.jpg"⟩]⟩, IndexOutcome.silentNoop) :=
  index_images_noop_is_silent (fun n : Nat => (n : Int)) [("a.jpg", some 1)]
    ⟨[⟨"a.jpg", 1, "a.jpg"⟩]⟩ (by decide) (by decide)

/-- C10: the run's inserted entries are built in lockstep: the entry at
every position of the appended batch carries, as its embedding, the
encoding of exactly the image read from the folder under that entry's
id, and its metadata restates that same id. -/
theorem index_images_lockstep {Img α : Type} (encode : Img → α)
    (folder : List (String × Option Img)) (store : Store α) (j : Nat)
    (hj : j < (insertedEntries encode folder store).length) :
    ((insertedEntries encode folder store).get ⟨j, hj⟩).metaFilename =
      ((insertedEntries encode folder store).get ⟨j, hj⟩).id ∧
    ∃ img, (((insertedEntries encode folder store).get ⟨j, hj⟩).id, some img) ∈ folder ∧
      ((insertedEntries encode folder store).get ⟨j, hj⟩).embedding = encode img := by
  have he := insertedEntries_eq encode folder store
  revert hj
  rw [he]
  intro hj
  simp only [List.get_eq_getElem, List.getElem_map]
  have hlt : j < (newReadableItems (listIDs store) (imageFiles folder)).length := by
    simpa using hj
  have hpm : (newReadableItems (listIDs store) (imageFiles folder)).get ⟨j, hlt⟩ ∈
      newReadableItems (listIDs store) (imageFiles folder) := List.get_mem _ _ _
  have hfolder : (((newReadableItems (listIDs store) (imageFiles folder)).get ⟨j, hlt⟩).1,
      some ((newReadableItems (listIDs store) (imageFiles folder)).get ⟨j, hlt⟩).2) ∈ folder :=
    List.mem_of_mem_filter (mem_newReadableItems hpm).1
  exact ⟨trivial, _, hfolder, rfl⟩

theorem index_images_lockstep_witness :
    ((insertedEntries (fun n : Nat => (n : Int)) [("a.jpg", some 7)] ⟨[]⟩).get
        ⟨0, by decide⟩).metaFilename =
      ((insertedEntries (fun n : Nat => (n : Int)) [("a.jpg", some 7)] ⟨[]⟩).get
        ⟨0, by decide⟩).id ∧
    ∃ img, (((insertedEntries (fun n : Nat => (n : Int)) [("a.jpg", some 7)] ⟨[]⟩).get
        ⟨0, by decide⟩).id, some img) ∈ [("a.jpg", some 7)] ∧
      ((insertedEntries (fun n : Nat => (n : Int)) [("a.jpg", some 7)] ⟨[]⟩).get
        ⟨0, by decide⟩).embedding = (fun n : Nat => (n : Int)) img :=
  index_images_lockstep (fun n : Nat => (n : Int)) [("a.jpg", some 7)] ⟨[]⟩ 0 (by decide)

lemma charListLE_total : ∀ a b : List Char, charListLE a b = true ∨ charListLE b a = true := by
  intro a
  induction a with
  | nil => intro b; exact Or.inl rfl
  | cons x xs ih =>
    intro b
    cases b with
    | nil => exact Or.inr rfl
    | cons y ys =>
      rcases lt_trichotomy x y with hxy | hxy | hxy
      · exact Or.inl (by simp [charListLE, hxy])
      · subst hxy
        rcases ih ys with h | h
        · exact Or.inl (by simp [charListLE, h])
        · exact Or.inr (by simp [charListLE, h])
      · exact Or.inr (by simp [charListLE, hxy])

lemma charListLE_trans : ∀ a b c : List Char, charListLE a b = true →
    charListLE b c = true → charListLE a c = true := by
  intro a
  induction a with
  | nil => intro b c _ _; rfl
  | cons x xs ih =>
    intro b c hab hbc
    cases b with
    | nil => simp [charListLE] at hab
    | cons y ys =>
      cases c with
      | nil => simp [charListLE] at hbc
      | cons z zs =>
        simp only [charListLE] at hab hbc ⊢
        rcases lt_trichotomy x y with hxy | hxy | hxy
        · rcases lt_trichotomy y z with hyz | hyz | hyz
          · simp [lt_trans hxy hyz]
          · subst hyz
            simp [hxy]
          · exfalso
            rw [if_neg (asymm hyz), if_pos hyz] at hbc
            exact Bool.false_ne_true hbc
        · subst hxy
          rw [if_neg (lt_irrefl x), if_neg (lt_irrefl x)] at hab
          rcases lt_trichotomy x z with hxz | hxz | hxz
          · simp [hxz]
          · subst hxz
            rw [if_neg (lt_irrefl x), if_neg (lt_irrefl x)] at hbc ⊢
            exact ih ys zs hab hbc
          · exfalso
            rw [if_neg (asymm hxz), if_pos hxz] at hbc
            exact Bool.false_ne_true hbc
        · exfalso
          rw [if_neg (asymm hxy), if_pos hxy] at hab
          exact Bool.false_ne_true hab

instance rankRel_isTotal {α δ : Type} [LinearOrder δ] (d : α → α → δ) (qv : α) :
    IsTotal (IndexEntry α) (rankRel d qv) := by
  constructor
  intro a b
  rcases lt_trichotomy (d qv a.embedding) (d qv b.embedding) with h | h | h
  · exact Or.inl (Or.inl h)
  · rcases charListLE_total a.id.data b.id.data with hc | hc
    · exact Or.inl (Or.inr ⟨h, hc⟩)
    · exact Or.inr (Or.inr ⟨h.symm, hc⟩)
  · exact Or.inr (Or.inl h)

instance rankRel_isTrans {α δ : Type} [LinearOrder δ] (d : α → α → δ) (qv : α) :
    IsTrans (IndexEntry α) (rankRel d qv) := by
  constructor
  intro a b c hab hbc
  rcases hab with h1 | ⟨h1, h1b⟩ <;> rcases hbc with h2 | ⟨h2, h2b⟩
  · exact Or.inl (lt_trans h1 h2)
  · exact Or.inl (lt_of_lt_of_eq h1 h2)
  · exact Or.inl (lt_of_eq_of_lt h1 h2)
  · exact Or.inr ⟨h1.trans h2, charListLE_trans _ _ _ h1b h2b⟩

/-- C4 counterexample: a whitespace-only query is truthy for Python's
`if query:` guard, so it is embedded and the store IS queried — the
result even depends on the store's contents — and no error of any kind
is raised; the original claim that such a query is rejected without
store access is false on the code. -/
theorem searchFlow_whitespace_counterexample :
    searchFlow (fun _ => (0 : Int)) (fun a b => a - b)
        (⟨[⟨"a.jpg", 0, "a.jpg"⟩]⟩ : Store Int) "   " =
      SearchOutcome.results [("a.jpg", 0)] ∧
    searchFlow (fun _ => (0 : Int)) (fun a b => a - b) (⟨[]⟩ : Store Int) "   " =
      SearchOutcome.noMatches := by
  exact ⟨by decide, by decide⟩

/-- C4 amended: the query path skips the search (no embedding, no store
access, and also no error raised) exactly when the query string is
empty; any non-empty query — including whitespace-only text — is
embedded and sent to the store. -/
theorem searchFlow_skips_iff_empty {α δ : Type} [LinearOrder δ]
    (encodeText : String → α) (d : α → α → δ) (store : Store α) (q : String) :
    searchFlow encodeText d store q = SearchOutcome.notSearched ↔
      q.data.isEmpty = true := by
  rw [searchFlow]
  by_cases h : q.data.isEmpty
  · simp [h]
  · simp only [h, Bool.false_eq_true, if_false]
    constructor
    · intro hcontra
      by_cases hr : (storeQuery d store (encodeText q) 3).isEmpty <;>
        simp [hr] at hcontra
    · intro hcontra
      exact hcontra.elim

/-- C5: the store query returns exactly `min k storeSize` results for
every store state, query vector and `k` — so never more than `k`, and
all entries when the store holds fewer than `k`. -/
theorem storeQuery_k_bounded {α δ : Type} [LinearOrder δ] (d : α → α → δ)
    (store : Store α) (qv : α) (k : Nat) :
    (storeQuery d store qv k).length = min k store.entries.length := by
  rw [storeQuery, List.length_take, List.length_map,
    (List.perm_insertionSort (rankRel d qv) store.entries).length_eq]

/-- C6: querying a freshly created, empty store with a valid (non-empty)
query text yields the empty result sequence, and the search path ends in
the informational "No matching images found" branch — a normal outcome,
not an error. -/
theorem searchFlow_empty_store {α δ : Type} [LinearOrder δ]
    (encodeText : String → α) (d : α → α → δ) (q : String)
    (hq : q.data.isEmpty = false) :
    storeQuery d (⟨[]⟩ : Store α) (encodeText q) 3 = [] ∧
    searchFlow encodeText d (⟨[]⟩ : Store α) q = SearchOutcome.noMatches := by
  constructor
  · rfl
  · rw [searchFlow]
    simp [hq, storeQuery]

theorem searchFlow_empty_store_witness :
    storeQuery (fun a b : Int => a - b) (⟨[]⟩ : Store Int)
      ((fun _ => (0 : Int)) "cat") 3 = [] ∧
    searchFlow (fun _ => (0 : Int)) (fun a b : Int => a - b) (⟨[]⟩ : Store Int) "cat" =
      SearchOutcome.noMatches :=
  searchFlow_empty_store (fun _ => (0 : Int)) (fun a b : Int => a - b) "cat" (by decide)

/-- C7: the store query is deterministic in the store contents and query
vector — equal contents and equal query vector give the identical
ordered result on every call — and the returned sequence is ordered
ascending by distance, entries at equal distance ordered by ItemID
ascending in lexical order. -/
theorem storeQuery_deterministic_ranked {α δ : Type} [LinearOrder δ]
    (d : α → α → δ) (s1 s2 : Store α) (qv : α) (k : Nat)
    (h : s1.entries = s2.entries) :
    storeQuery d s1 qv k = storeQuery d s2 qv k ∧
    List.Pairwise
      (fun x y : String × δ =>
        x.2 < y.2 ∨ (x.2 = y.2 ∧ charListLE x.1.data y.1.data = true))
      (storeQuery d s1 qv k) := by
  constructor
  · rw [storeQuery, storeQuery, h]
  · apply List.Pairwise.sublist (List.take_sublist _ _)
    rw [List.pairwise_map]
    exact List.sorted_insertionSort (rankRel d qv) s1.entries

theorem storeQuery_deterministic_ranked_witness :
    storeQuery (fun a b : Int => a - b)
        (⟨[⟨"b.jpg", 4, "b.jpg"⟩, ⟨"a.jpg", 4, "a.jpg"⟩, ⟨"c.jpg", 1, "c.jpg"⟩]⟩ : Store Int)
        0 3 =
      storeQuery (fun a b : Int => a - b)
        (⟨[⟨"b.jpg", 4, "b.jpg"⟩, ⟨"a.jpg", 4, "a.jpg"⟩, ⟨"c.jpg", 1, "c.jpg"⟩]⟩ : Store Int)
        0 3 ∧
    List.Pairwise
      (fun x y : String × Int =>
        x.2 < y.2 ∨ (x.2 = y.2 ∧ charListLE x.1.data y.1.data = true))
      (storeQuery (fun a b : Int => a - b)
        (⟨[⟨"b.jpg", 4, "b.jpg"⟩, ⟨"a.jpg", 4, "a.jpg"⟩, ⟨"c.jpg", 1, "c.jpg"⟩]⟩ : Store Int)
        0 3) :=
  storeQuery_deterministic_ranked (fun a b : Int => a - b)
    ⟨[⟨"b.jpg", 4, "b.jpg"⟩, ⟨"a.jpg", 4, "a.jpg"⟩, ⟨"c.jpg", 1, "c.jpg"⟩]⟩
    ⟨[⟨"b.jpg", 4, "b.jpg"⟩, ⟨"a.jpg", 4, "a.jpg"⟩, ⟨"c.jpg", 1, "c.jpg"⟩]⟩ 0 3 rfl

end SmartLens
